import Mathlib

/-!
Verification of the NeoPixel lighting controller (`src/NeoPixels/NeoPixels.ino`).

The development shallowly embeds the mode-switch quantizer, the chasing-dots
index computations, the rainbow hue arithmetic, the pulsing-colours envelope,
and the cooperative frame loops of the five animation routines.  Machine
integers are modelled as `Nat` with explicit reduction modulo `2^16` (resp.
`2^8`) exactly where the C++ code performs unsigned 16-bit (resp. 8-bit)
arithmetic.
-/

set_option linter.unusedVariables false
set_option maxRecDepth 8192

/-- Unsigned 16-bit addition: `(a + b) mod 2^16`, as performed on `uint16_t`
operands after the usual arithmetic conversions on an AVR target. -/
def add16 (a b : Nat) : Nat := (a + b) % 65536

/-- Unsigned 16-bit multiplication: `(a * b) mod 2^16`. -/
def mul16 (a b : Nat) : Nat := (a * b) % 65536

/-- Unsigned 16-bit subtraction with wraparound: the value of `a - b` on
`uint16_t` operands. -/
def sub16 (a b : Nat) : Nat := (a % 65536 + (65536 - b % 65536)) % 65536

/-- The `modes` enumeration from the sketch: eight ordinary modes (one per
selector stop, declared in ascending voltage order) plus the `ERROR`
sentinel. -/
inductive modes : Type where
  | BRIGHT_WHITE
  | DIM_WHITE
  | PASTEL_RAINBOW
  | ROLLING_RAINBOW
  | ROLLING_RAINBOW_RING
  | CHASING_DOTS
  | PULSING_COLOURS
  | RANDOM
  | ERROR
deriving DecidableEq, Repr

/-- `static_cast<modes>(n)` for the underlying values `0 .. 7` produced by
`read_mode`; any other value is outside the enumeration (never produced). -/
def modes.fromNat : Nat → modes
  | 0 => .BRIGHT_WHITE
  | 1 => .DIM_WHITE
  | 2 => .PASTEL_RAINBOW
  | 3 => .ROLLING_RAINBOW
  | 4 => .ROLLING_RAINBOW_RING
  | 5 => .CHASING_DOTS
  | 6 => .PULSING_COLOURS
  | 7 => .RANDOM
  | _ => .ERROR

/-- Underlying `uint8_t` value of a mode (declaration order in the enum). -/
def modes.toNat : modes → Nat
  | .BRIGHT_WHITE => 0
  | .DIM_WHITE => 1
  | .PASTEL_RAINBOW => 2
  | .ROLLING_RAINBOW => 3
  | .ROLLING_RAINBOW_RING => 4
  | .CHASING_DOTS => 5
  | .PULSING_COLOURS => 6
  | .RANDOM => 7
  | .ERROR => 8

namespace mode_switch

/-- `constexpr uint8_t n_stops = 8;` -/
def n_stops : Nat := 8

/-- `const uint16_t delta = UINT16_MAX / (2 * (n_stops - 1));` -/
def delta : Nat := 65535 / (2 * (n_stops - 1))

/-- `const uint16_t threshold = (2 * n + 1) * delta;` computed, as in the C++
code on a 16-bit AVR `int`, in unsigned 16-bit arithmetic. -/
def threshold (n : Nat) : Nat := ((2 * n + 1) * delta) % 65536

/-- The `for (uint8_t n = 0; n < (n_stops - 1); ++n)` search of
`mode_switch::read_mode`: returns the first index `n` with
`value < threshold n`, and `n_stops - 1` if the fuel (the remaining loop
iterations) runs out.  `read_mode` invokes it with `n = 0` and fuel
`n_stops - 1 = 7`. -/
def quantLoop (value : Nat) : Nat → Nat → Nat
  | _, 0 => n_stops - 1
  | n, fuel + 1 =>
    if value < threshold n then n else quantLoop value (n + 1) fuel

/-- `mode_switch::read_mode`, with the raw `analogRead` result passed in as
the `int voltage` (the one effect the function performs).  Mirrors the
out-of-range guard, the `<< 6` precision extension into `uint16_t`, and the
ascending threshold search. -/
def read_mode (voltage : Int) : modes :=
  if voltage < 0 ∨ voltage > 1023 then modes.ERROR
  else
    let value : Nat := (voltage.toNat * 64) % 65536
    modes.fromNat (quantLoop value 0 (n_stops - 1))

/-- Reference quantizer transcribed from the specification text: extend the
sample by `* 64`, set `delta = MAX_WIDE / (2 * (N_STOPS - 1))`, return
`Mode(i)` for the first band index `i` in `0 .. N_STOPS-2` with
`extended_sample < (2*i + 1) * delta`, else `Mode(N_STOPS - 1)`. -/
def quantize_spec (sample : Nat) : modes :=
  let extended := sample * 64
  let d := 65535 / (2 * (n_stops - 1))
  match (List.range (n_stops - 1)).find? (fun i => extended < (2 * i + 1) * d) with
  | some i => modes.fromNat i
  | none => modes.fromNat (n_stops - 1)

end mode_switch

namespace neopixels

/-- `constexpr uint8_t n_rings = 5;` -/
def n_rings : Nat := 5

/-- `constexpr uint8_t n_leds_per_ring = 12;` -/
def n_leds_per_ring : Nat := 12

/-- `constexpr uint8_t n_leds = n_leds_per_ring * n_rings;` (= 60). -/
def n_leds : Nat := n_leds_per_ring * n_rings

/-- The hue written for LED `n` by `neopixels::rainbow` in the current sketch:
`const uint16_t hue = base_hue - n * phase_offset;` — an unsigned 16-bit
subtraction of the (unsigned 16-bit) product `n * phase_offset`. -/
def rainbow_hue (base_hue phase_offset n : Nat) : Nat :=
  sub16 base_hue (mul16 n phase_offset)

/-- The hue formula asserted by the specification text for the rainbow
animation: `base_hue + index * phase_offset` in 16-bit wraparound
arithmetic. -/
def rainbow_hue_spec (base_hue phase_offset n : Nat) : Nat :=
  add16 base_hue (mul16 n phase_offset)

/-- The rolling reference hue of `neopixels::rainbow`: starts at `0` and
advances by `base_hue += hue_step_size;` (unsigned 16-bit) once per frame.
`baseHue step t` is its value when frame `t` is rendered. -/
def baseHue (hue_step_size : Nat) : Nat → Nat
  | 0 => 0
  | t + 1 => add16 (baseHue hue_step_size t) hue_step_size

/-- `const uint8_t offset = 3 * (UINT8_MAX / 4);` from
`neopixels::pulsing_colours` (= 189). -/
def pulsing_offset : Nat := 3 * (255 / 4)

/-- The phase values swept by the envelope loop of
`neopixels::pulsing_colours`:
`for (uint8_t phase = 25; phase <= (UINT8_MAX - 25); ++phase)`. -/
def pulsing_phases : List Nat :=
  (List.range 256).filter (fun phase => 25 ≤ phase && phase ≤ 255 - 25)

/-- One hue of `neopixels::pulsing_colours`:
`hue_index * (UINT16_MAX / n_colours) + hue_offset` in unsigned 16-bit
arithmetic. -/
def pulsing_hue (n_colours hue_offset hue_index : Nat) : Nat :=
  add16 (mul16 hue_index (65535 / n_colours)) hue_offset

/-- The sequence of `value` arguments displayed during one envelope sweep of
`neopixels::pulsing_colours`:
`max(strip.sine8(phase + offset), UINT8_MAX / 16)` for each swept phase.
`strip.sine8` is library code outside the repository, so the lookup is kept
abstract as the parameter `sine8`; its `uint8_t` argument truncates
`phase + offset` modulo 256. -/
def pulsing_envelope (sine8 : Nat → Nat) : List Nat :=
  pulsing_phases.map (fun phase => max (sine8 ((phase + pulsing_offset) % 256)) (255 / 16))

/-- `const uint16_t n_timepoints = n_leds + ((n_dots - 1) * separation) +
n_fade + 3;` of `neopixels::chasing_dots`, in unsigned 16-bit arithmetic. -/
def n_timepoints (n_dots n_fade separation : Nat) : Nat :=
  add16 (add16 (add16 n_leds (mul16 (sub16 n_dots 1) separation)) n_fade) 3

/-- The fade intensities cached by `neopixels::chasing_dots`:
`intensities[n_f] = (n_fade - n_f) * (UINT8_MAX / (n_fade + 1));` stored in a
`uint8_t`. -/
def intensities (n_fade : Nat) : List Nat :=
  (List.range n_fade).map (fun n_f => ((n_fade - n_f) * (255 / (n_fade + 1))) % 256)

/-- The buffer indices passed to `strip.setPixelColor` by the fade-trail loop
of `neopixels::chasing_dots` for one dot at start offset `offset` at timestep
`t`: for each `n_f < n_fade`, guarded by
`t <= (offset + n_f + 1 + n_leds)`, the index `t - offset - n_f - 1` in
unsigned 16-bit arithmetic. -/
def trailWrites (offset n_fade t : Nat) : List Nat :=
  (List.range n_fade).filterMap (fun n_f =>
    if t ≤ add16 (add16 (add16 offset n_f) 1) n_leds then
      some (sub16 (sub16 (sub16 t offset) n_f) 1)
    else none)

/-- The buffer indices passed to `strip.setPixelColor` by the
`for (uint8_t n = 0; n < n_dots; ++n)` dot-placement loop of
`neopixels::chasing_dots` at timestep `t`, processing dots from index `n`
with `fuel` dots remaining.  Mirrors the `break` when `t < offset`, the
`continue` when `t > n_leds + offset + n_fade`, the guarded head write
`setPixelColor(t - offset, ...)`, and the fade-trail writes. -/
def dotWrites (n_fade separation t : Nat) : Nat → Nat → List Nat
  | _, 0 => []
  | n, fuel + 1 =>
    let offset := mul16 n separation
    if t < offset then []
    else if add16 (add16 n_leds offset) n_fade < t then
      dotWrites n_fade separation t (n + 1) fuel
    else
      (if t ≤ add16 offset n_leds then [sub16 t offset] else []) ++
      trailWrites offset n_fade t ++
      dotWrites n_fade separation t (n + 1) fuel

/-- All buffer indices written while rendering the chasing-dots frame for
timestep `t`. -/
def chasingFrameWrites (n_dots n_fade separation t : Nat) : List Nat :=
  dotWrites n_fade separation t 0 n_dots

end neopixels

/-- Observable events of an animation routine: `render` (one complete frame
computed and written into the pixel buffer), `flush` (`strip.show()`),
`check m` (`mode_switch::read_mode()` returned `m` and was compared against
the captured active mode), and `ret` (the routine returns). -/
inductive ev : Type where
  | render
  | flush
  | check (m : modes)
  | ret
deriving DecidableEq, Repr

/-- `n` consecutive frame blocks starting at check index `k`: each block is a
complete frame render, its flush, and the mode-change check that follows. -/
def frameSeq (readings : Nat → modes) : Nat → Nat → List ev
  | _, 0 => []
  | k, n + 1 => ev.render :: ev.flush :: ev.check (readings k) :: frameSeq readings (k + 1) n

/-- `n` consecutive bare checks starting at check index `k` (the idle loop of
`constant_colour`, which re-renders nothing between checks). -/
def checkSeq (readings : Nat → modes) : Nat → Nat → List ev
  | _, 0 => []
  | k, n + 1 => ev.check (readings k) :: checkSeq readings (k + 1) n

namespace neopixels

/-- The `while (true)` wait loop of `neopixels::constant_colour`: per
iteration, read the mode, return if it differs from the captured active mode,
else delay and continue.  `readings k` is the result of the `k`-th
`read_mode()` call; `fuel` bounds the number of simulated iterations. -/
def constantLoop (captured : modes) (readings : Nat → modes) : Nat → Nat → List ev
  | _, 0 => []
  | k, fuel + 1 =>
    ev.check (readings k) ::
      (if readings k ≠ captured then [ev.ret]
       else constantLoop captured readings (k + 1) fuel)

/-- Event trace of `neopixels::constant_colour`: one `strip.fill` +
`strip.show()` (a complete frame) before the wait loop. -/
def constant_colour_trace (captured : modes) (readings : Nat → modes) (fuel : Nat) : List ev :=
  ev.render :: ev.flush :: constantLoop captured readings 0 fuel

/-- The `while (true)` loop of `neopixels::rainbow`: per iteration, fill every
LED (`render`), `strip.show()` (`flush`), advance `base_hue`, then check the
switch and return if the mode changed. -/
def rainbowLoop (captured : modes) (readings : Nat → modes) : Nat → Nat → List ev
  | _, 0 => []
  | k, fuel + 1 =>
    ev.render :: ev.flush :: ev.check (readings k) ::
      (if readings k ≠ captured then [ev.ret]
       else rainbowLoop captured readings (k + 1) fuel)

/-- Event trace of `neopixels::rainbow`. -/
def rainbow_trace (captured : modes) (readings : Nat → modes) (fuel : Nat) : List ev :=
  rainbowLoop captured readings 0 fuel

/-- The `while (true)` loop of `neopixels::random`: per iteration, fill every
LED with random colours (`render`), `strip.show()`, check the switch and
return if the mode changed, else delay. -/
def randomLoop (captured : modes) (readings : Nat → modes) : Nat → Nat → List ev
  | _, 0 => []
  | k, fuel + 1 =>
    ev.render :: ev.flush :: ev.check (readings k) ::
      (if readings k ≠ captured then [ev.ret]
       else randomLoop captured readings (k + 1) fuel)

/-- Event trace of `neopixels::random`. -/
def random_trace (captured : modes) (readings : Nat → modes) (fuel : Nat) : List ev :=
  randomLoop captured readings 0 fuel

/-- The inner `for (uint8_t phase = 25; phase <= (UINT8_MAX - 25); ++phase)`
loop of `neopixels::pulsing_colours`, with `steps` iterations remaining: per
iteration, `strip.fill` with the envelope colour (`render`), `strip.show()`,
check the switch and return (`none`) if the mode changed, else delay and
continue.  Returns the consumed trace and `some k` with the next check index
when the loop completes. -/
def pulsePhases (captured : modes) (readings : Nat → modes) : Nat → Nat → List ev × Option Nat
  | k, 0 => ([], some k)
  | k, steps + 1 =>
    if readings k ≠ captured then
      ([ev.render, ev.flush, ev.check (readings k), ev.ret], none)
    else
      let p := pulsePhases captured readings (k + 1) steps
      (ev.render :: ev.flush :: ev.check (readings k) :: p.1, p.2)

/-- The `for (uint8_t hue_index = 0; hue_index < n_colours; ++hue_index)`
loop of `neopixels::pulsing_colours` with `hues` hues remaining; each hue runs
the 206-step phase sweep (`phase = 25 .. 230`). -/
def pulseHues (captured : modes) (readings : Nat → modes) : Nat → Nat → List ev × Option Nat
  | k, 0 => ([], some k)
  | k, hues + 1 =>
    match pulsePhases captured readings k 206 with
    | (es, none) => (es, none)
    | (es, some k2) =>
      let p := pulseHues captured readings k2 hues
      (es ++ p.1, p.2)

/-- The outer `while (true)` loop of `neopixels::pulsing_colours`. -/
def pulseOuter (captured : modes) (readings : Nat → modes) (n_colours : Nat) :
    Nat → Nat → List ev
  | _, 0 => []
  | k, fuel + 1 =>
    match pulseHues captured readings k n_colours with
    | (es, none) => es
    | (es, some k2) => es ++ pulseOuter captured readings n_colours k2 fuel

/-- Event trace of `neopixels::pulsing_colours`. -/
def pulsing_colours_trace (captured : modes) (readings : Nat → modes)
    (n_colours fuel : Nat) : List ev :=
  pulseOuter captured readings n_colours 0 fuel

/-- The inner `for (uint16_t t = 0; t < n_timepoints; ++t)` loop of
`neopixels::chasing_dots`, with `steps` timepoints remaining: per iteration,
`strip.clear()` plus dot placement (`render`), `strip.show()`, check the
switch and return (`none`) if the mode changed, else delay and continue. -/
def chaseTimes (captured : modes) (readings : Nat → modes) : Nat → Nat → List ev × Option Nat
  | k, 0 => ([], some k)
  | k, steps + 1 =>
    if readings k ≠ captured then
      ([ev.render, ev.flush, ev.check (readings k), ev.ret], none)
    else
      let p := chaseTimes captured readings (k + 1) steps
      (ev.render :: ev.flush :: ev.check (readings k) :: p.1, p.2)

/-- The outer `while (true)` loop of `neopixels::chasing_dots`, whose body
walks the `n_timepoints`-step virtual timeline. -/
def chaseOuter (captured : modes) (readings : Nat → modes) (T : Nat) :
    Nat → Nat → List ev
  | _, 0 => []
  | k, fuel + 1 =>
    match chaseTimes captured readings k T with
    | (es, none) => es
    | (es, some k2) => es ++ chaseOuter captured readings T k2 fuel

/-- Event trace of `neopixels::chasing_dots`. -/
def chasing_dots_trace (captured : modes) (readings : Nat → modes)
    (n_dots n_fade separation fuel : Nat) : List ev :=
  chaseOuter captured readings (n_timepoints n_dots n_fade separation) 0 fuel

end neopixels

/-- Concrete reading sequence used to witness the preemption theorem: the
first reading matches `modes.CHASING_DOTS`, the second differs. -/
def readingsW : Nat → modes :=
  fun k => if k < 1 then modes.CHASING_DOTS else modes.BRIGHT_WHITE

example : mode_switch.delta = 4681 := by decide
example : mode_switch.read_mode 0 = modes.BRIGHT_WHITE := by decide
example : mode_switch.read_mode 73 = modes.BRIGHT_WHITE := by decide
example : mode_switch.read_mode 74 = modes.DIM_WHITE := by decide
example : mode_switch.read_mode 1023 = modes.RANDOM := by decide
example : mode_switch.read_mode (-1) = modes.ERROR := by decide
example : mode_switch.read_mode 1024 = modes.ERROR := by decide

example : neopixels.n_timepoints 5 8 40 = 231 := by decide
example : neopixels.chasingFrameWrites 5 8 40 0 = [0, 65535, 65534, 65533, 65532, 65531, 65530, 65529, 65528] := by decide
example : neopixels.chasingFrameWrites 5 8 40 60 =
    [60, 59, 58, 57, 56, 55, 54, 53, 52, 20, 19, 18, 17, 16, 15, 14, 13, 12] := by decide

-- ---------------------------------------------------------------------------
-- Helper lemmas about the quantizer loop
-- ---------------------------------------------------------------------------

lemma modes_fromNat_toNat : ∀ k, k < 8 → (modes.fromNat k).toNat = k := by decide

lemma modes_fromNat_ne_error : ∀ k, k < 8 → modes.fromNat k ≠ modes.ERROR := by decide

lemma quantLoop_le_seven :
    ∀ fuel n value, n + fuel = 7 → mode_switch.quantLoop value n fuel ≤ 7 := by
  intro fuel
  induction fuel with
  | zero => intro n value h; simp [mode_switch.quantLoop, mode_switch.n_stops]
  | succ fuel ih =>
    intro n value h
    rw [mode_switch.quantLoop]
    split
    · omega
    · exact ih (n + 1) value (by omega)

lemma quantLoop_ge :
    ∀ fuel n value, n + fuel = 7 → n ≤ mode_switch.quantLoop value n fuel := by
  intro fuel
  induction fuel with
  | zero => intro n value h; simp [mode_switch.quantLoop, mode_switch.n_stops]; omega
  | succ fuel ih =>
    intro n value h
    rw [mode_switch.quantLoop]
    split
    · omega
    · exact le_trans (by omega) (ih (n + 1) value (by omega))

lemma quantLoop_mono :
    ∀ fuel n v1 v2, n + fuel = 7 → v1 ≤ v2 →
      mode_switch.quantLoop v1 n fuel ≤ mode_switch.quantLoop v2 n fuel := by
  intro fuel
  induction fuel with
  | zero => intro n v1 v2 h hv; simp [mode_switch.quantLoop]
  | succ fuel ih =>
    intro n v1 v2 h hv
    rw [mode_switch.quantLoop, mode_switch.quantLoop]
    by_cases h2 : v2 < mode_switch.threshold n
    · rw [if_pos (lt_of_le_of_lt hv h2), if_pos h2]
    · rw [if_neg h2]
      by_cases h1 : v1 < mode_switch.threshold n
      · rw [if_pos h1]
        exact le_trans (by omega) (quantLoop_ge fuel (n + 1) v2 (by omega))
      · rw [if_neg h1]
        exact ih (n + 1) v1 v2 (by omega) hv

lemma read_mode_in_range (s : Nat) (h : s ≤ 1023) :
    mode_switch.read_mode s =
      modes.fromNat (mode_switch.quantLoop (s * 64) 0 7) := by
  have hneg : ¬((s : Int) < 0 ∨ (s : Int) > 1023) := by
    omega
  rw [mode_switch.read_mode, if_neg hneg]
  have htn : (s : Int).toNat = s := Int.toNat_natCast s
  have hmod : s * 64 % 65536 = s * 64 := Nat.mod_eq_of_lt (by omega)
  simp [htn, hmod, mode_switch.n_stops]

-- ---------------------------------------------------------------------------
-- C1, C2, C4, C6, C7, C10: the mode quantizer
-- ---------------------------------------------------------------------------

/-- C1: for every raw sample in `[0, 1023]`, `mode_switch::read_mode` follows
the reference algorithm of the specification: extend the sample by `* 64`,
take `delta = UINT16_MAX / (2 * (n_stops - 1))`, return `Mode(i)` for the
first band index `i` in `0 .. n_stops - 2` whose extended sample is strictly
below `(2*i + 1) * delta`, and `Mode(n_stops - 1)` if no band matches. -/
theorem read_mode_follows_spec (s : Nat) (h : s ≤ 1023) :
    mode_switch.read_mode s = mode_switch.quantize_spec s := by
  have key : ∀ t : Nat, t < 1024 → mode_switch.read_mode t = mode_switch.quantize_spec t := by
    decide
  exact key s (by omega)

/-- Witness for C1 at the concrete sample 512. -/
theorem read_mode_follows_spec_witness :
    (512 : Nat) ≤ 1023 ∧ mode_switch.read_mode 512 = mode_switch.quantize_spec 512 :=
  ⟨by decide, read_mode_follows_spec 512 (by decide)⟩

/-- C2: the quantizer is monotone non-decreasing on valid samples: for raw
samples `s1 < s2` in `[0, 1023]`, the ordinary mode returned for `s1` is at
most the one returned for `s2` in the declared ordering `0 .. n_stops - 1`. -/
theorem read_mode_monotone (s1 s2 : Nat) (h12 : s1 < s2) (h2 : s2 ≤ 1023) :
    (mode_switch.read_mode s1).toNat ≤ (mode_switch.read_mode s2).toNat := by
  rw [read_mode_in_range s1 (by omega), read_mode_in_range s2 h2]
  rw [modes_fromNat_toNat _ (by have := quantLoop_le_seven 7 0 (s1 * 64) (by omega); omega),
      modes_fromNat_toNat _ (by have := quantLoop_le_seven 7 0 (s2 * 64) (by omega); omega)]
  exact quantLoop_mono 7 0 (s1 * 64) (s2 * 64) (by omega) (by omega)

/-- Witness for C2 at the concrete samples 100 and 900. -/
theorem read_mode_monotone_witness :
    (100 : Nat) < 900 ∧ (900 : Nat) ≤ 1023 ∧
      (mode_switch.read_mode 100).toNat ≤ (mode_switch.read_mode 900).toNat :=
  ⟨by decide, by decide, read_mode_monotone 100 900 (by decide) (by decide)⟩

/-- C4: the boundary behaviour of the quantizer: `read_mode (-1)` and
`read_mode 1024` both yield `ERROR`, `read_mode 0` yields the first ordinary
mode `Mode(0)` and `read_mode 1023` the last ordinary mode
`Mode(n_stops - 1)`; out-of-range samples map to `ERROR` without wrapping
(the function is total). -/
theorem read_mode_boundaries :
    mode_switch.read_mode (-1) = modes.ERROR ∧
    mode_switch.read_mode 1024 = modes.ERROR ∧
    mode_switch.read_mode 0 = modes.fromNat 0 ∧
    mode_switch.read_mode 0 = modes.BRIGHT_WHITE ∧
    mode_switch.read_mode 1023 = modes.fromNat (mode_switch.n_stops - 1) ∧
    mode_switch.read_mode 1023 = modes.RANDOM := by
  refine ⟨by decide, by decide, by decide, by decide, by decide, by decide⟩

/-- C6: a value lying exactly at a computed boundary `threshold i` of the
extended 16-bit domain belongs to the upper band: the ascending strict `<`
search returns `Mode(i + 1)` on it, for every boundary index
`i ≤ n_stops - 2`. -/
theorem boundary_belongs_to_upper_band (i : Nat) (h : i ≤ mode_switch.n_stops - 2) :
    modes.fromNat
        (mode_switch.quantLoop (mode_switch.threshold i) 0 (mode_switch.n_stops - 1)) =
      modes.fromNat (i + 1) := by
  have key : ∀ j, j < 7 →
      modes.fromNat (mode_switch.quantLoop (mode_switch.threshold j) 0 (mode_switch.n_stops - 1)) =
        modes.fromNat (j + 1) := by decide
  exact key i (by simp [mode_switch.n_stops] at h; omega)

/-- Witness for C6 at the boundary index 3. -/
theorem boundary_belongs_to_upper_band_witness :
    (3 : Nat) ≤ mode_switch.n_stops - 2 ∧
      modes.fromNat
          (mode_switch.quantLoop (mode_switch.threshold 3) 0 (mode_switch.n_stops - 1)) =
        modes.fromNat 4 :=
  ⟨by decide, boundary_belongs_to_upper_band 3 (by decide)⟩

/-- C7: with `n_stops = 8`, every threshold `(2*n + 1) * delta` for
`n ≤ n_stops - 2` fits in the unsigned 16-bit range (the largest being
`13 * delta`), so its `uint16_t` computation does not wrap, and the sequence
of thresholds tested by the ascending loop is strictly increasing. -/
theorem thresholds_no_overflow_strictly_increasing (n : Nat) (h : n ≤ mode_switch.n_stops - 2) :
    (2 * n + 1) * mode_switch.delta < 65536 ∧
    mode_switch.threshold n = (2 * n + 1) * mode_switch.delta ∧
    mode_switch.threshold (mode_switch.n_stops - 2) = 13 * mode_switch.delta ∧
    (n < mode_switch.n_stops - 2 →
      mode_switch.threshold n < mode_switch.threshold (n + 1)) := by
  have key : ∀ m, m < 7 →
      (2 * m + 1) * mode_switch.delta < 65536 ∧
      mode_switch.threshold m = (2 * m + 1) * mode_switch.delta ∧
      mode_switch.threshold (mode_switch.n_stops - 2) = 13 * mode_switch.delta ∧
      (m < mode_switch.n_stops - 2 →
        mode_switch.threshold m < mode_switch.threshold (m + 1)) := by decide
  exact key n (by simp [mode_switch.n_stops] at h; omega)

/-- Witness for C7 at the largest boundary index 6. -/
theorem thresholds_no_overflow_strictly_increasing_witness :
    (6 : Nat) ≤ mode_switch.n_stops - 2 ∧
      (2 * 6 + 1) * mode_switch.delta < 65536 ∧
      mode_switch.threshold 6 = (2 * 6 + 1) * mode_switch.delta :=
  ⟨by decide,
    (thresholds_no_overflow_strictly_increasing 6 (by decide)).1,
    (thresholds_no_overflow_strictly_increasing 6 (by decide)).2.1⟩

/-- C10: `read_mode` yields `ERROR` exactly for raw readings outside
`[0, 1023]`; every in-range reading yields an ordinary mode with underlying
index at most `n_stops - 1 = 7`, so the dispatcher's `ERROR`/default fallback
arm is unreachable under an in-range reading. -/
theorem read_mode_error_iff_out_of_range (v : Int) :
    (mode_switch.read_mode v = modes.ERROR ↔ (v < 0 ∨ 1023 < v)) ∧
    (0 ≤ v → v ≤ 1023 → (mode_switch.read_mode v).toNat ≤ 7) := by
  constructor
  · constructor
    · intro herr
      by_contra hrange
      push_neg at hrange
      have hs : v = ((v.toNat : Nat) : Int) := by omega
      have hle : v.toNat ≤ 1023 := by omega
      rw [hs, read_mode_in_range v.toNat hle] at herr
      exact modes_fromNat_ne_error _
        (by have := quantLoop_le_seven 7 0 (v.toNat * 64) (by omega); omega) herr
    · intro hout
      rw [mode_switch.read_mode, if_pos (by omega)]
  · intro h0 h1
    have hs : v = ((v.toNat : Nat) : Int) := by omega
    rw [hs, read_mode_in_range v.toNat (by omega)]
    rw [modes_fromNat_toNat _ (by have := quantLoop_le_seven 7 0 (v.toNat * 64) (by omega); omega)]
    exact quantLoop_le_seven 7 0 (v.toNat * 64) (by omega)

/-- Witness for C10 at the in-range reading 512 and out-of-range reading -5. -/
theorem read_mode_error_iff_out_of_range_witness :
    (mode_switch.read_mode 512).toNat ≤ 7 ∧ mode_switch.read_mode (-5) = modes.ERROR :=
  ⟨(read_mode_error_iff_out_of_range 512).2 (by decide) (by decide),
    (read_mode_error_iff_out_of_range (-5)).1.mpr (by decide)⟩

-- ---------------------------------------------------------------------------
-- Helper lemmas about 16-bit arithmetic and the chasing-dots writes
-- ---------------------------------------------------------------------------

lemma n_leds_eq : neopixels.n_leds = 60 := rfl

lemma add16_of_lt {a b : Nat} (h : a + b < 65536) : add16 a b = a + b := by
  unfold add16; omega

lemma mul16_of_lt {a b : Nat} (h : a * b < 65536) : mul16 a b = a * b :=
  Nat.mod_eq_of_lt h

lemma sub16_of_le {a b : Nat} (hb : b ≤ a) (ha : a < 65536) : sub16 a b = a - b := by
  unfold sub16; omega

lemma trailWrites_bound (offset nf t : Nat) (hoff : offset ≤ t) (ht : t < 65536)
    (hsum : offset + nf + 60 ≤ 65535) :
    ∀ i ∈ neopixels.trailWrites offset nf t, i ≤ neopixels.n_leds ∨ 65536 - nf ≤ i := by
  intro i hi
  simp only [neopixels.trailWrites, List.mem_filterMap, List.mem_range] at hi
  obtain ⟨nf', hlt, heq⟩ := hi
  by_cases hg : t ≤ add16 (add16 (add16 offset nf') 1) neopixels.n_leds
  · rw [if_pos hg] at heq
    have hieq := Option.some.inj heq
    rw [n_leds_eq]
    simp only [sub16, add16, n_leds_eq] at hg hieq
    omega
  · rw [if_neg hg] at heq
    exact absurd heq (by simp)

lemma dotWrites_bound :
    ∀ fuel n nd nf sep t, n + fuel = nd →
      (nd - 1) * sep + nf + 60 ≤ 65532 → t < 65536 →
      ∀ i ∈ neopixels.dotWrites nf sep t n fuel,
        i ≤ neopixels.n_leds ∨ 65536 - nf ≤ i := by
  intro fuel
  induction fuel with
  | zero =>
    intro n nd nf sep t hn hb ht i hi
    simp [neopixels.dotWrites] at hi
  | succ fuel ih =>
    intro n nd nf sep t hn hb ht i hi
    rw [neopixels.dotWrites] at hi
    have hnle : n ≤ nd - 1 := by omega
    have hoffb : n * sep ≤ (nd - 1) * sep := Nat.mul_le_mul_right sep hnle
    have hoff : mul16 n sep = n * sep := mul16_of_lt (by omega)
    rw [hoff] at hi
    by_cases hbrk : t < n * sep
    · rw [if_pos hbrk] at hi
      simp at hi
    · rw [if_neg hbrk] at hi
      by_cases hcont : add16 (add16 neopixels.n_leds (n * sep)) nf < t
      · rw [if_pos hcont] at hi
        exact ih (n + 1) nd nf sep t (by omega) hb ht i hi
      · rw [if_neg hcont] at hi
        rcases List.mem_append.mp hi with hi | hi
        · rcases List.mem_append.mp hi with hi | hi
          · by_cases hhead : t ≤ add16 (n * sep) neopixels.n_leds
            · rw [if_pos hhead] at hi
              have : i = sub16 t (n * sep) := by simpa using hi
              rw [this, sub16_of_le (by omega) ht, n_leds_eq]
              simp only [add16, n_leds_eq] at hhead
              omega
            · rw [if_neg hhead] at hi
              simp at hi
          · exact trailWrites_bound (n * sep) nf t (by omega) ht (by omega) i hi
        · exact ih (n + 1) nd nf sep t (by omega) hb ht i hi

-- ---------------------------------------------------------------------------
-- C3: chasing-dots buffer indices
-- ---------------------------------------------------------------------------

/-- C3 counterexample: with the dispatcher's parameters `n_dots = 5`,
`n_fade = 8`, `separation = 40`, at the valid timestep `t = 0` the fade-trail
loop computes the buffer index `0 - 0 - 0 - 1`, which wraps in unsigned
16-bit arithmetic to `65535` — an index at/above `n_leds` (the logical index
`-1`), refuting the claim that no such index is ever computed. -/
theorem chasing_dots_index_counterexample :
    (0 : Nat) < neopixels.n_timepoints 5 8 40 ∧
    65535 ∈ neopixels.chasingFrameWrites 5 8 40 0 ∧
    ¬(65535 < neopixels.n_leds) ∧
    neopixels.n_leds ∈ neopixels.chasingFrameWrites 5 8 40 60 :=
  ⟨by decide, by decide, by decide, by decide⟩

/-- C3 amended: for every valid parameter set (`n_dots ≥ 1`, `uint8_t` dot and
fade counts, `uint16_t` separation, and a timeline that fits in `uint16_t`)
and every timestep `t < n_timepoints`, every buffer index computed by the
chasing-dots rendering is either at most `n_leds` (the dot head and
non-underflowed trail indices, which may equal `n_leds` itself, one past the
last LED) or has wrapped around to at least `2^16 - n_fade` (a trail pixel of
a dot whose trail still extends before position 0).  The out-of-range values
`n_leds` and `≥ 2^16 - n_fade` are discarded by the pixel driver's own bounds
check rather than written. -/
theorem chasing_dots_index_range (nd nf sep t : Nat)
    (hnd1 : 1 ≤ nd) (hnd : nd ≤ 255) (hnf : nf ≤ 255) (hsep : sep ≤ 65535)
    (hfit : neopixels.n_leds + (nd - 1) * sep + nf + 3 ≤ 65535)
    (ht : t < neopixels.n_timepoints nd nf sep) :
    ∀ i ∈ neopixels.chasingFrameWrites nd nf sep t,
      i ≤ neopixels.n_leds ∨ 65536 - nf ≤ i := by
  rw [n_leds_eq] at hfit
  have hT : neopixels.n_timepoints nd nf sep = 60 + (nd - 1) * sep + nf + 3 := by
    have h1 : add16 60 ((nd - 1) * sep) = 60 + (nd - 1) * sep := add16_of_lt (by omega)
    have h2 : add16 (60 + (nd - 1) * sep) nf = 60 + (nd - 1) * sep + nf := add16_of_lt (by omega)
    have h3 : add16 (60 + (nd - 1) * sep + nf) 3 = 60 + (nd - 1) * sep + nf + 3 :=
      add16_of_lt (by omega)
    rw [neopixels.n_timepoints, sub16_of_le (by omega) (by omega),
        mul16_of_lt (by omega), n_leds_eq, h1, h2, h3]
  rw [hT] at ht
  exact dotWrites_bound nd 0 nd nf sep t (by omega) (by omega) (by omega)

/-- Witness for the amended C3 at the dispatcher's parameters and `t = 30`. -/
theorem chasing_dots_index_range_witness :
    (30 : Nat) ∈ neopixels.chasingFrameWrites 5 8 40 30 ∧
    ((30 : Nat) ≤ neopixels.n_leds ∨ 65536 - 8 ≤ 30) :=
  ⟨by decide,
    chasing_dots_index_range 5 8 40 30 (by decide) (by decide) (by decide) (by decide)
      (by decide) (by decide) 30 (by decide)⟩

-- ---------------------------------------------------------------------------
-- Helper lemmas: 16-bit operations seen in `ZMod 65536`
-- ---------------------------------------------------------------------------

lemma add16_cast (a b : Nat) : ((add16 a b : Nat) : ZMod 65536) = (a : ZMod 65536) + b := by
  unfold add16
  rw [ZMod.natCast_mod]
  push_cast
  ring

lemma mul16_cast (a b : Nat) : ((mul16 a b : Nat) : ZMod 65536) = (a : ZMod 65536) * b := by
  unfold mul16
  rw [ZMod.natCast_mod]
  push_cast
  ring

lemma sub16_cast (a b : Nat) : ((sub16 a b : Nat) : ZMod 65536) = (a : ZMod 65536) - b := by
  unfold sub16
  have hb : b % 65536 ≤ 65536 := le_of_lt (Nat.mod_lt b (by omega))
  rw [ZMod.natCast_mod, Nat.cast_add, ZMod.natCast_mod, Nat.cast_sub hb,
      ZMod.natCast_self, zero_sub, ZMod.natCast_mod]
  ring

lemma sub16_lt (a b : Nat) : sub16 a b < 65536 := by
  unfold sub16; omega

lemma baseHue_closed (step : Nat) : ∀ t, neopixels.baseHue step t = (t * step) % 65536 := by
  intro t
  induction t with
  | zero => simp [neopixels.baseHue]
  | succ t ih =>
    rw [neopixels.baseHue, ih, Nat.succ_mul]
    unfold add16
    omega

-- ---------------------------------------------------------------------------
-- C8: rainbow hue arithmetic
-- ---------------------------------------------------------------------------

/-- C8 counterexample: in the current sketch the hue is computed as
`base_hue - n * phase_offset`, not `base_hue + n * phase_offset` as the claim
states.  At the first frame (`base_hue = 0`) with `phase_offset = 1`, LED 1
receives hue `65535` (the 16-bit wraparound of `-1`), while the claim's
formula yields `1`. -/
theorem rainbow_hue_counterexample :
    neopixels.rainbow_hue (neopixels.baseHue 16 0) 1 1 = 65535 ∧
    neopixels.rainbow_hue_spec (neopixels.baseHue 16 0) 1 1 = 1 ∧
    (65535 : Nat) ≠ 1 :=
  ⟨by decide, by decide, by decide⟩

/-- C8 amended: for every LED index `n`, the hue written in frame `t` equals
`base_hue - n * phase_offset` computed in 16-bit unsigned arithmetic with
wraparound (as an identity in `ZMod 65536`; a small `base_hue` combined with
a positive offset wraps to a value near `UINT16_MAX`, and the result always
lies in `[0, 65536)` — never a throw or a clamp), and between frames
`base_hue` advances by `hue_step_size` modulo `2^16`, so that
`base_hue = t * hue_step_size (mod 2^16)` at frame `t`. -/
theorem rainbow_hue_wraparound (step off t n : Nat) :
    ((neopixels.rainbow_hue (neopixels.baseHue step t) off n : Nat) : ZMod 65536) =
        (neopixels.baseHue step t : ZMod 65536) - (n : ZMod 65536) * (off : ZMod 65536) ∧
    neopixels.rainbow_hue (neopixels.baseHue step t) off n < 65536 ∧
    ((neopixels.baseHue step (t + 1) : Nat) : ZMod 65536) =
        ((neopixels.baseHue step t : Nat) : ZMod 65536) + (step : ZMod 65536) ∧
    neopixels.baseHue step t = (t * step) % 65536 := by
  refine ⟨?_, ?_, ?_, ?_⟩
  · rw [neopixels.rainbow_hue, sub16_cast, mul16_cast]
  · exact sub16_lt _ _
  · rw [neopixels.baseHue, add16_cast]
  · exact baseHue_closed step t

-- ---------------------------------------------------------------------------
-- C9: pulsing-colours brightness envelope
-- ---------------------------------------------------------------------------

/-- C9 counterexample: the envelope loop of `neopixels::pulsing_colours`
sweeps only the 206 phases `25 .. UINT8_MAX - 25`, not one full 256-step
cycle of the sine-like lookup, and its phase shift is
`3 * (UINT8_MAX / 4) = 189`, not the exact three-quarter cycle `192`; in
particular phase `0` is never swept, and the argument `192` (the 270-degree
minimum of the lookup) is never formed from any swept phase. -/
theorem pulsing_envelope_counterexample :
    neopixels.pulsing_phases.length = 206 ∧ (206 : Nat) ≠ 256 ∧
    neopixels.pulsing_offset = 189 ∧ (189 : Nat) ≠ 3 * 256 / 4 ∧
    (0 : Nat) ∉ neopixels.pulsing_phases ∧
    ∀ phase ∈ neopixels.pulsing_phases, (phase + neopixels.pulsing_offset) % 256 ≠ 192 :=
  ⟨by decide, by decide, by decide, by decide, by decide, by decide⟩

/-- C9 amended: for each hue, the brightness envelope sweeps the 206 phases
`25 .. UINT8_MAX - 25` (a deliberately trimmed, not full, cycle) of the
sine-like lookup shifted by `3 * (UINT8_MAX / 4) = 189` (approximately 3/4 of
a cycle), and every displayed value equals the lookup's output at
`(phase + 189) mod 256` clamped below by `UINT8_MAX / 16 = 15`, so the
envelope never reaches true zero at any step.  The lookup `strip.sine8` is
library code outside the repository and is universally quantified. -/
theorem pulsing_envelope_clamped (sine8 : Nat → Nat) :
    (neopixels.pulsing_envelope sine8).length = 206 ∧
    ∀ v ∈ neopixels.pulsing_envelope sine8,
      (∃ phase, 25 ≤ phase ∧ phase ≤ 255 - 25 ∧
        v = max (sine8 ((phase + neopixels.pulsing_offset) % 256)) (255 / 16)) ∧
      255 / 16 ≤ v ∧ 0 < v := by
  constructor
  · rw [neopixels.pulsing_envelope, List.length_map]
    decide
  · intro v hv
    rw [neopixels.pulsing_envelope, List.mem_map] at hv
    obtain ⟨phase, hphase, hveq⟩ := hv
    rw [neopixels.pulsing_phases, List.mem_filter] at hphase
    obtain ⟨-, hrange⟩ := hphase
    simp only [Bool.and_eq_true, decide_eq_true_eq] at hrange
    refine ⟨⟨phase, hrange.1, hrange.2, hveq.symm⟩, ?_, ?_⟩
    · rw [← hveq]; exact le_max_right _ _
    · rw [← hveq]; exact lt_of_lt_of_le (by norm_num) (le_max_right _ _)

/-- Witness for the amended C9 with the constant-zero lookup: the displayed
value 15 is in the envelope and is clamped and positive. -/
theorem pulsing_envelope_clamped_witness :
    (15 : Nat) ∈ neopixels.pulsing_envelope (fun _ => 0) ∧
    (255 / 16 ≤ 15 ∧ 0 < (15 : Nat)) :=
  ⟨by decide, ((pulsing_envelope_clamped (fun _ => 0)).2 15 (by decide)).2⟩

-- ---------------------------------------------------------------------------
-- Helper lemmas: cooperative frame-loop traces
-- ---------------------------------------------------------------------------

lemma frameSeq_ret_not_mem (readings : Nat → modes) :
    ∀ n k, ev.ret ∉ frameSeq readings k n := by
  intro n
  induction n with
  | zero => intro k; simp [frameSeq]
  | succ n ih => intro k; simp [frameSeq, ih (k + 1)]

lemma checkSeq_ret_not_mem (readings : Nat → modes) :
    ∀ n k, ev.ret ∉ checkSeq readings k n := by
  intro n
  induction n with
  | zero => intro k; simp [checkSeq]
  | succ n ih => intro k; simp [checkSeq, ih (k + 1)]

lemma frameSeq_append (readings : Nat → modes) :
    ∀ m n k, frameSeq readings k (m + n) = frameSeq readings k m ++ frameSeq readings (k + m) n := by
  intro m
  induction m with
  | zero => intro n k; simp [frameSeq]
  | succ m ih =>
    intro n k
    have h1 : m + 1 + n = (m + n) + 1 := by omega
    rw [h1, frameSeq, frameSeq, ih n (k + 1)]
    have h2 : k + 1 + m = k + (m + 1) := by omega
    rw [h2]
    simp [List.cons_append]

lemma checkSeq_succ (readings : Nat → modes) (k n : Nat) :
    checkSeq readings k (n + 1) = ev.check (readings k) :: checkSeq readings (k + 1) n := rfl

lemma frameSeq_succ (readings : Nat → modes) (k n : Nat) :
    frameSeq readings k (n + 1) =
      ev.render :: ev.flush :: ev.check (readings k) :: frameSeq readings (k + 1) n := rfl

lemma constantLoop_eq (captured : modes) (readings : Nat → modes) :
    ∀ fuel k, (∀ i, k ≤ i → i < k + fuel → readings i = captured) →
      neopixels.constantLoop captured readings k fuel = checkSeq readings k fuel := by
  intro fuel
  induction fuel with
  | zero => intro k hpre; simp [neopixels.constantLoop, checkSeq]
  | succ fuel ih =>
    intro k hpre
    rw [neopixels.constantLoop, checkSeq]
    rw [if_neg (not_not_intro (hpre k (by omega) (by omega)))]
    rw [ih (k + 1) (fun i h1 h2 => hpre i (by omega) (by omega))]

lemma rainbowLoop_eq (captured : modes) (readings : Nat → modes) :
    ∀ fuel k, (∀ i, k ≤ i → i < k + fuel → readings i = captured) →
      neopixels.rainbowLoop captured readings k fuel = frameSeq readings k fuel := by
  intro fuel
  induction fuel with
  | zero => intro k hpre; simp [neopixels.rainbowLoop, frameSeq]
  | succ fuel ih =>
    intro k hpre
    rw [neopixels.rainbowLoop, frameSeq]
    rw [if_neg (not_not_intro (hpre k (by omega) (by omega)))]
    rw [ih (k + 1) (fun i h1 h2 => hpre i (by omega) (by omega))]

lemma randomLoop_eq (captured : modes) (readings : Nat → modes) :
    ∀ fuel k, (∀ i, k ≤ i → i < k + fuel → readings i = captured) →
      neopixels.randomLoop captured readings k fuel = frameSeq readings k fuel := by
  intro fuel
  induction fuel with
  | zero => intro k hpre; simp [neopixels.randomLoop, frameSeq]
  | succ fuel ih =>
    intro k hpre
    rw [neopixels.randomLoop, frameSeq]
    rw [if_neg (not_not_intro (hpre k (by omega) (by omega)))]
    rw [ih (k + 1) (fun i h1 h2 => hpre i (by omega) (by omega))]

lemma pulsePhases_eq (captured : modes) (readings : Nat → modes) :
    ∀ s k, (∀ i, k ≤ i → i < k + s → readings i = captured) →
      neopixels.pulsePhases captured readings k s = (frameSeq readings k s, some (k + s)) := by
  intro s
  induction s with
  | zero => intro k hpre; simp [neopixels.pulsePhases, frameSeq]
  | succ s ih =>
    intro k hpre
    rw [neopixels.pulsePhases, frameSeq]
    rw [if_neg (not_not_intro (hpre k (by omega) (by omega)))]
    rw [ih (k + 1) (fun i h1 h2 => hpre i (by omega) (by omega))]
    simp
    omega

lemma chaseTimes_eq (captured : modes) (readings : Nat → modes) :
    ∀ s k, (∀ i, k ≤ i → i < k + s → readings i = captured) →
      neopixels.chaseTimes captured readings k s = (frameSeq readings k s, some (k + s)) := by
  intro s
  induction s with
  | zero => intro k hpre; simp [neopixels.chaseTimes, frameSeq]
  | succ s ih =>
    intro k hpre
    rw [neopixels.chaseTimes, frameSeq]
    rw [if_neg (not_not_intro (hpre k (by omega) (by omega)))]
    rw [ih (k + 1) (fun i h1 h2 => hpre i (by omega) (by omega))]
    simp
    omega

lemma pulseHues_eq (captured : modes) (readings : Nat → modes) :
    ∀ h k, (∀ i, k ≤ i → i < k + 206 * h → readings i = captured) →
      neopixels.pulseHues captured readings k h =
        (frameSeq readings k (206 * h), some (k + 206 * h)) := by
  intro h
  induction h with
  | zero => intro k hpre; simp [neopixels.pulseHues, frameSeq]
  | succ h ih =>
    intro k hpre
    rw [neopixels.pulseHues]
    rw [pulsePhases_eq captured readings 206 k (fun i h1 h2 => hpre i h1 (by omega))]
    dsimp only
    rw [ih (k + 206) (fun i h1 h2 => hpre i (by omega) (by omega))]
    have hm : 206 * (h + 1) = 206 + 206 * h := by ring
    rw [hm, frameSeq_append readings 206 (206 * h) k]
    simp
    omega

lemma chaseOuter_eq (captured : modes) (readings : Nat → modes) (T : Nat) :
    ∀ fuel k, (∀ i, k ≤ i → i < k + T * fuel → readings i = captured) →
      neopixels.chaseOuter captured readings T k fuel = frameSeq readings k (T * fuel) := by
  intro fuel
  induction fuel with
  | zero => intro k hpre; simp [neopixels.chaseOuter, frameSeq]
  | succ fuel ih =>
    intro k hpre
    rw [neopixels.chaseOuter]
    rw [chaseTimes_eq captured readings T k (fun i h1 h2 => hpre i h1 (by nlinarith))]
    dsimp only
    rw [ih (k + T) (fun i h1 h2 => hpre i (by omega) (by nlinarith))]
    have hm : T * (fuel + 1) = T + T * fuel := by ring
    rw [hm, frameSeq_append readings T (T * fuel) k]

lemma pulseOuter_eq (captured : modes) (readings : Nat → modes) (nc : Nat) :
    ∀ fuel k, (∀ i, k ≤ i → i < k + 206 * nc * fuel → readings i = captured) →
      neopixels.pulseOuter captured readings nc k fuel = frameSeq readings k (206 * nc * fuel) := by
  intro fuel
  induction fuel with
  | zero => intro k hpre; simp [neopixels.pulseOuter, frameSeq]
  | succ fuel ih =>
    intro k hpre
    rw [neopixels.pulseOuter]
    rw [pulseHues_eq captured readings nc k (fun i h1 h2 => hpre i h1 (by nlinarith))]
    dsimp only
    rw [ih (k + 206 * nc) (fun i h1 h2 => hpre i (by omega) (by nlinarith))]
    have hm : 206 * nc * (fuel + 1) = 206 * nc + 206 * nc * fuel := by ring
    rw [hm, frameSeq_append readings (206 * nc) (206 * nc * fuel) k]

lemma constantLoop_first_diff (captured : modes) (readings : Nat → modes) (j : Nat)
    (hpre : ∀ i, i < j → readings i = captured) (hdiff : readings j ≠ captured) :
    ∀ fuel k, k ≤ j → j < k + fuel →
      neopixels.constantLoop captured readings k fuel =
        checkSeq readings k (j - k + 1) ++ [ev.ret] := by
  intro fuel
  induction fuel with
  | zero => intro k h1 h2; omega
  | succ fuel ih =>
    intro k h1 h2
    rw [neopixels.constantLoop]
    by_cases hk : k = j
    · subst hk
      rw [if_pos hdiff]
      have hm : k - k + 1 = 1 := by omega
      rw [hm]
      simp [checkSeq]
    · rw [if_neg (not_not_intro (hpre k (by omega)))]
      rw [ih (k + 1) (by omega) (by omega)]
      have hm : j - k + 1 = (j - (k + 1) + 1) + 1 := by omega
      rw [hm, checkSeq_succ readings k (j - (k + 1) + 1)]
      simp [List.cons_append]

lemma rainbowLoop_first_diff (captured : modes) (readings : Nat → modes) (j : Nat)
    (hpre : ∀ i, i < j → readings i = captured) (hdiff : readings j ≠ captured) :
    ∀ fuel k, k ≤ j → j < k + fuel →
      neopixels.rainbowLoop captured readings k fuel =
        frameSeq readings k (j - k + 1) ++ [ev.ret] := by
  intro fuel
  induction fuel with
  | zero => intro k h1 h2; omega
  | succ fuel ih =>
    intro k h1 h2
    rw [neopixels.rainbowLoop]
    by_cases hk : k = j
    · subst hk
      rw [if_pos hdiff]
      have hm : k - k + 1 = 1 := by omega
      rw [hm]
      simp [frameSeq]
    · rw [if_neg (not_not_intro (hpre k (by omega)))]
      rw [ih (k + 1) (by omega) (by omega)]
      have hm : j - k + 1 = (j - (k + 1) + 1) + 1 := by omega
      rw [hm, frameSeq_succ readings k (j - (k + 1) + 1)]
      simp [List.cons_append]

lemma randomLoop_first_diff (captured : modes) (readings : Nat → modes) (j : Nat)
    (hpre : ∀ i, i < j → readings i = captured) (hdiff : readings j ≠ captured) :
    ∀ fuel k, k ≤ j → j < k + fuel →
      neopixels.randomLoop captured readings k fuel =
        frameSeq readings k (j - k + 1) ++ [ev.ret] := by
  intro fuel
  induction fuel with
  | zero => intro k h1 h2; omega
  | succ fuel ih =>
    intro k h1 h2
    rw [neopixels.randomLoop]
    by_cases hk : k = j
    · subst hk
      rw [if_pos hdiff]
      have hm : k - k + 1 = 1 := by omega
      rw [hm]
      simp [frameSeq]
    · rw [if_neg (not_not_intro (hpre k (by omega)))]
      rw [ih (k + 1) (by omega) (by omega)]
      have hm : j - k + 1 = (j - (k + 1) + 1) + 1 := by omega
      rw [hm, frameSeq_succ readings k (j - (k + 1) + 1)]
      simp [List.cons_append]

lemma pulsePhases_first_diff (captured : modes) (readings : Nat → modes) (j : Nat)
    (hpre : ∀ i, i < j → readings i = captured) (hdiff : readings j ≠ captured) :
    ∀ s k, k ≤ j → j < k + s →
      neopixels.pulsePhases captured readings k s =
        (frameSeq readings k (j - k + 1) ++ [ev.ret], none) := by
  intro s
  induction s with
  | zero => intro k h1 h2; omega
  | succ s ih =>
    intro k h1 h2
    rw [neopixels.pulsePhases]
    by_cases hk : k = j
    · subst hk
      rw [if_pos hdiff]
      have hm : k - k + 1 = 1 := by omega
      rw [hm]
      simp [frameSeq]
    · rw [if_neg (not_not_intro (hpre k (by omega)))]
      rw [ih (k + 1) (by omega) (by omega)]
      have hm : j - k + 1 = (j - (k + 1) + 1) + 1 := by omega
      rw [hm, frameSeq_succ readings k (j - (k + 1) + 1)]
      simp [List.cons_append]

lemma chaseTimes_first_diff (captured : modes) (readings : Nat → modes) (j : Nat)
    (hpre : ∀ i, i < j → readings i = captured) (hdiff : readings j ≠ captured) :
    ∀ s k, k ≤ j → j < k + s →
      neopixels.chaseTimes captured readings k s =
        (frameSeq readings k (j - k + 1) ++ [ev.ret], none) := by
  intro s
  induction s with
  | zero => intro k h1 h2; omega
  | succ s ih =>
    intro k h1 h2
    rw [neopixels.chaseTimes]
    by_cases hk : k = j
    · subst hk
      rw [if_pos hdiff]
      have hm : k - k + 1 = 1 := by omega
      rw [hm]
      simp [frameSeq]
    · rw [if_neg (not_not_intro (hpre k (by omega)))]
      rw [ih (k + 1) (by omega) (by omega)]
      have hm : j - k + 1 = (j - (k + 1) + 1) + 1 := by omega
      rw [hm, frameSeq_succ readings k (j - (k + 1) + 1)]
      simp [List.cons_append]

lemma pulseHues_first_diff (captured : modes) (readings : Nat → modes) (j : Nat)
    (hpre : ∀ i, i < j → readings i = captured) (hdiff : readings j ≠ captured) :
    ∀ h k, k ≤ j → j < k + 206 * h →
      neopixels.pulseHues captured readings k h =
        (frameSeq readings k (j - k + 1) ++ [ev.ret], none) := by
  intro h
  induction h with
  | zero => intro k h1 h2; omega
  | succ h ih =>
    intro k h1 h2
    rw [neopixels.pulseHues]
    by_cases hcase : j < k + 206
    · rw [pulsePhases_first_diff captured readings j hpre hdiff 206 k h1 hcase]
    · rw [pulsePhases_eq captured readings 206 k (fun i hi1 hi2 => hpre i (by omega))]
      dsimp only
      rw [ih (k + 206) (by omega) (by omega)]
      dsimp only
      have hm : j - k + 1 = 206 + (j - (k + 206) + 1) := by omega
      rw [hm, frameSeq_append readings 206 (j - (k + 206) + 1) k]
      simp [List.append_assoc]

lemma chaseOuter_first_diff (captured : modes) (readings : Nat → modes) (T j : Nat)
    (hpre : ∀ i, i < j → readings i = captured) (hdiff : readings j ≠ captured) :
    ∀ fuel k, k ≤ j → j < k + T * fuel →
      neopixels.chaseOuter captured readings T k fuel =
        frameSeq readings k (j - k + 1) ++ [ev.ret] := by
  intro fuel
  induction fuel with
  | zero => intro k h1 h2; simp at h2; omega
  | succ fuel ih =>
    intro k h1 h2
    have hexp : T * (fuel + 1) = T + T * fuel := by ring
    rw [hexp] at h2
    rw [neopixels.chaseOuter]
    by_cases hcase : j < k + T
    · rw [chaseTimes_first_diff captured readings j hpre hdiff T k h1 hcase]
    · rw [chaseTimes_eq captured readings T k (fun i hi1 hi2 => hpre i (by omega))]
      dsimp only
      rw [ih (k + T) (by omega) (by omega)]
      have hm : j - k + 1 = T + (j - (k + T) + 1) := by omega
      rw [hm, frameSeq_append readings T (j - (k + T) + 1) k]
      simp [List.append_assoc]

lemma pulseOuter_first_diff (captured : modes) (readings : Nat → modes) (nc j : Nat)
    (hpre : ∀ i, i < j → readings i = captured) (hdiff : readings j ≠ captured) :
    ∀ fuel k, k ≤ j → j < k + 206 * nc * fuel →
      neopixels.pulseOuter captured readings nc k fuel =
        frameSeq readings k (j - k + 1) ++ [ev.ret] := by
  intro fuel
  induction fuel with
  | zero => intro k h1 h2; simp at h2; omega
  | succ fuel ih =>
    intro k h1 h2
    have hexp : 206 * nc * (fuel + 1) = 206 * nc + 206 * nc * fuel := by ring
    rw [hexp] at h2
    rw [neopixels.pulseOuter]
    by_cases hcase : j < k + 206 * nc
    · rw [pulseHues_first_diff captured readings j hpre hdiff nc k h1 hcase]
    · rw [pulseHues_eq captured readings nc k (fun i hi1 hi2 => hpre i (by omega))]
      dsimp only
      rw [ih (k + 206 * nc) (by omega) (by omega)]
      have hm : j - k + 1 = 206 * nc + (j - (k + 206 * nc) + 1) := by omega
      rw [hm, frameSeq_append readings (206 * nc) (j - (k + 206 * nc) + 1) k]
      simp [List.append_assoc]

-- ---------------------------------------------------------------------------
-- C5: cooperative preemption of the animation routines
-- ---------------------------------------------------------------------------

/-- C5: every animation routine (`constant_colour`, `rainbow`, `random`,
`pulsing_colours`, `chasing_dots`) returns exactly when a re-quantized
selector reading differs from the active mode captured at its start.  First
conjunct: while every reading equals the captured mode, no routine ever
returns (`ev.ret` never occurs, for any number of loop iterations).  Second
conjunct: if the first differing reading is the `j`-th, each routine's trace
is exactly `j + 1` complete render/flush/check frame blocks followed
immediately by the return (`constant_colour` renders and flushes its single
frame once, before its `j + 1` checks) — so every mode-change check happens
only after a complete frame has been computed and flushed, a routine never
exits with a partially rendered frame, and consecutive checks are separated
by at most one frame's render, flush, and delay. -/
theorem animation_cooperative_preemption (captured : modes) (readings : Nat → modes) :
    ((∀ i, readings i = captured) →
      ∀ fuel nc nd nf sep,
        ev.ret ∉ neopixels.constant_colour_trace captured readings fuel ∧
        ev.ret ∉ neopixels.rainbow_trace captured readings fuel ∧
        ev.ret ∉ neopixels.random_trace captured readings fuel ∧
        ev.ret ∉ neopixels.pulsing_colours_trace captured readings nc fuel ∧
        ev.ret ∉ neopixels.chasing_dots_trace captured readings nd nf sep fuel) ∧
    (∀ j, (∀ i, i < j → readings i = captured) → readings j ≠ captured →
      (∀ fuel, j < fuel →
        neopixels.constant_colour_trace captured readings fuel =
          ev.render :: ev.flush :: (checkSeq readings 0 (j + 1) ++ [ev.ret]) ∧
        neopixels.rainbow_trace captured readings fuel =
          frameSeq readings 0 (j + 1) ++ [ev.ret] ∧
        neopixels.random_trace captured readings fuel =
          frameSeq readings 0 (j + 1) ++ [ev.ret]) ∧
      (∀ nc fuel, j < 206 * nc * fuel →
        neopixels.pulsing_colours_trace captured readings nc fuel =
          frameSeq readings 0 (j + 1) ++ [ev.ret]) ∧
      (∀ nd nf sep fuel, j < neopixels.n_timepoints nd nf sep * fuel →
        neopixels.chasing_dots_trace captured readings nd nf sep fuel =
          frameSeq readings 0 (j + 1) ++ [ev.ret])) := by
  constructor
  · intro hall fuel nc nd nf sep
    refine ⟨?_, ?_, ?_, ?_, ?_⟩
    · rw [neopixels.constant_colour_trace,
          constantLoop_eq captured readings fuel 0 (fun i h1 h2 => hall i)]
      simp [checkSeq_ret_not_mem readings fuel 0]
    · rw [neopixels.rainbow_trace,
          rainbowLoop_eq captured readings fuel 0 (fun i h1 h2 => hall i)]
      exact frameSeq_ret_not_mem readings fuel 0
    · rw [neopixels.random_trace,
          randomLoop_eq captured readings fuel 0 (fun i h1 h2 => hall i)]
      exact frameSeq_ret_not_mem readings fuel 0
    · rw [neopixels.pulsing_colours_trace,
          pulseOuter_eq captured readings nc fuel 0 (fun i h1 h2 => hall i)]
      exact frameSeq_ret_not_mem readings (206 * nc * fuel) 0
    · rw [neopixels.chasing_dots_trace,
          chaseOuter_eq captured readings (neopixels.n_timepoints nd nf sep) fuel 0
            (fun i h1 h2 => hall i)]
      exact frameSeq_ret_not_mem readings (neopixels.n_timepoints nd nf sep * fuel) 0
  · intro j hpre hdiff
    refine ⟨?_, ?_, ?_⟩
    · intro fuel hfuel
      refine ⟨?_, ?_, ?_⟩
      · rw [neopixels.constant_colour_trace,
            constantLoop_first_diff captured readings j hpre hdiff fuel 0 (by omega) (by omega),
            Nat.sub_zero]
      · rw [neopixels.rainbow_trace,
            rainbowLoop_first_diff captured readings j hpre hdiff fuel 0 (by omega) (by omega),
            Nat.sub_zero]
      · rw [neopixels.random_trace,
            randomLoop_first_diff captured readings j hpre hdiff fuel 0 (by omega) (by omega),
            Nat.sub_zero]
    · intro nc fuel hb
      rw [neopixels.pulsing_colours_trace,
          pulseOuter_first_diff captured readings nc j hpre hdiff fuel 0 (by omega) (by omega),
          Nat.sub_zero]
    · intro nd nf sep fuel hb
      rw [neopixels.chasing_dots_trace,
          chaseOuter_first_diff captured readings (neopixels.n_timepoints nd nf sep) j
            hpre hdiff fuel 0 (by omega) (by omega),
          Nat.sub_zero]

/-- Witness for C5: with the captured mode `CHASING_DOTS` and a reading
sequence whose second reading differs, each routine's trace consists of two
complete frame blocks (resp. one frame and two checks for `constant_colour`)
followed by the return. -/
theorem animation_cooperative_preemption_witness :
    readingsW 1 ≠ modes.CHASING_DOTS ∧
    neopixels.constant_colour_trace modes.CHASING_DOTS readingsW 3 =
      ev.render :: ev.flush :: (checkSeq readingsW 0 2 ++ [ev.ret]) ∧
    neopixels.rainbow_trace modes.CHASING_DOTS readingsW 3 =
      frameSeq readingsW 0 2 ++ [ev.ret] ∧
    neopixels.random_trace modes.CHASING_DOTS readingsW 3 =
      frameSeq readingsW 0 2 ++ [ev.ret] ∧
    neopixels.pulsing_colours_trace modes.CHASING_DOTS readingsW 1 1 =
      frameSeq readingsW 0 2 ++ [ev.ret] ∧
    neopixels.chasing_dots_trace modes.CHASING_DOTS readingsW 5 8 40 1 =
      frameSeq readingsW 0 2 ++ [ev.ret] := by
  have h := (animation_cooperative_preemption modes.CHASING_DOTS readingsW).2 1
    (by decide) (by decide)
  exact ⟨by decide, (h.1 3 (by decide)).1, (h.1 3 (by decide)).2.1, (h.1 3 (by decide)).2.2,
    h.2.1 1 1 (by decide), h.2.2 5 8 40 1 (by decide)⟩
